import Mathlib

/-!
# Verification of the claude-chatbot conversation core

Shallow embedding of the repository's core modules:
`src/context_manager.py` (ContextManager), `src/retry_handler.py` (RetryHandler),
`src/chat_session.py` (ChatSession), `src/conversation_manager.py`
(ConversationManager), and the consecutive-message merging of
`docs/original_chat.py` (`chat_with_claude`).

Python dicts are embedded as insertion-ordered association lists with unique
keys; Python exceptions become `Except`; `datetime` values become an opaque
`Datetime` wrapper (which is what makes them non-JSON-serializable, see
`ctxHistoryToJson`); Python ints are `Int`, floats that are only stored and
round-tripped (temperature) are `Rat`.
-/

/-- An opaque `datetime.datetime` value. `iso` is its `isoformat()` rendering.
A `Datetime` is *not* a JSON value: `json.dumps` raises `TypeError` on it. -/
structure Datetime where
  iso : String
deriving DecidableEq

/-- JSON values, as produced by Python's `json.dumps`/`json.loads`.
Python round-trips ints and floats as distinct scalar kinds, hence the two
numeric constructors. -/
inductive Json where
  | jnull : Json
  | jbool (b : Bool) : Json
  | jint (n : Int) : Json
  | jfloat (q : Rat) : Json
  | jstr (s : String) : Json
  | jarr (xs : List Json) : Json
  | jobj (fields : List (String × Json)) : Json

/-- Python dict lookup `d[k]` / `d.get(k)`: first (unique) matching key. -/
def dictGet {α : Type} (k : String) : List (String × α) → Option α
  | [] => none
  | (k', v) :: rest => if k' = k then some v else dictGet k rest

/-- Python dict assignment `d[k] = v`: overwrite in place if the key exists
(keeping its position in insertion order), else append. -/
def dictInsert {α : Type} (k : String) (v : α) : List (String × α) → List (String × α)
  | [] => [(k, v)]
  | (k', v') :: rest =>
    if k' = k then (k, v) :: rest else (k', v') :: dictInsert k v rest

/-- Python `del d[k]` / `d.pop(k)`: remove the entry with key `k`,
preserving the order of the others. -/
def dictErase {α : Type} (k : String) : List (String × α) → List (String × α)
  | [] => []
  | (k', v) :: rest =>
    if k' = k then dictErase k rest else (k', v) :: dictErase k rest

/-- The keys of a dict, in insertion order. -/
def dictKeys {α : Type} (l : List (String × α)) : List String :=
  l.map Prod.fst

/-! ## ContextManager (`src/context_manager.py`) -/

/-- The two `ValueError` kinds raised by `ContextManager` operations,
distinguished in the source only by their message text. -/
inductive CtxError where
  | unknownContext : CtxError
  | reservedName : CtxError
deriving DecidableEq

/-- One entry of `context_history`: `{'context': ..., 'timestamp': datetime}`. -/
structure CtxHistEntry where
  context : String
  timestamp : Datetime
deriving DecidableEq

/-- State of `ContextManager` (the `last_change` datetime field is carried
but never read by any modelled operation). -/
structure ContextManager where
  system_prompts : List (String × String)
  active_context : String
  context_history : List CtxHistEntry
  max_history : Nat
  last_change : Datetime
deriving DecidableEq

namespace ContextManager

/-- `ContextManager.DEFAULT_CONTEXTS`, verbatim from the source. -/
def DEFAULT_CONTEXTS : List (String × String) := [
  ("general", "You are Claude, a helpful AI assistant."),
  ("code_review", "You are a skilled Python developer tasked with reviewing and improving code.\n                         Focus on identifying bugs, suggesting optimizations, and ensuring best practices.\n                         Use clear explanations and provide specific code examples."),
  ("teacher", "You are an expert teacher, skilled at explaining complex concepts in simple terms.\n                     Break down difficult topics into understandable parts and use relevant examples.\n                     Encourage questions and provide step-by-step explanations."),
  ("translator", "You are a professional translator with expertise in multiple languages.\n                        Provide accurate translations while maintaining context and nuance.\n                        Explain cultural context when relevant."),
  ("writer", "You are a creative writer, skilled in various writing styles and formats.\n                    Help with writing, editing, and improving text content.\n                    Provide constructive feedback and suggestions.")]

/-- `ContextManager.__init__`: copy of the defaults, active `general`,
empty history, `max_history = 10`. -/
def init (now : Datetime) : ContextManager :=
  { system_prompts := DEFAULT_CONTEXTS
    active_context := "general"
    context_history := []
    max_history := 10
    last_change := now }

/-- `get_current_system_prompt`: `self.system_prompts[self.active_context]`
(`none` models the `KeyError` that an inconsistent state would raise). -/
def get_current_system_prompt (cm : ContextManager) : Option String :=
  dictGet cm.active_context cm.system_prompts

/-- `set_context(context_type)`: fail on an unknown name; otherwise set
`active_context`, append a history entry, and drop the oldest entry when the
history exceeds `max_history`. Returns the new prompt with the new state. -/
def set_context (now : Datetime) (cm : ContextManager) (context_type : String) :
    Except CtxError (String × ContextManager) :=
  match dictGet context_type cm.system_prompts with
  | none => .error .unknownContext
  | some prompt =>
    let h := cm.context_history ++ [⟨context_type, now⟩]
    let h' := if h.length > cm.max_history then h.tail else h
    .ok (prompt,
      { cm with active_context := context_type, context_history := h', last_change := now })

/-- `add_custom_context(name, prompt)`: fail on a built-in name; otherwise
insert or overwrite. -/
def add_custom_context (cm : ContextManager) (name prompt : String) :
    Except CtxError ContextManager :=
  if (dictGet name DEFAULT_CONTEXTS).isSome then .error .reservedName
  else .ok { cm with system_prompts := dictInsert name prompt cm.system_prompts }

/-- `remove_custom_context(name)`: fail on a built-in or an absent name;
otherwise delete the entry and, if it was active, `set_context("general")`. -/
def remove_custom_context (now : Datetime) (cm : ContextManager) (name : String) :
    Except CtxError ContextManager :=
  if (dictGet name DEFAULT_CONTEXTS).isSome then .error .reservedName
  else if (dictGet name cm.system_prompts).isNone then .error .unknownContext
  else
    let cm' := { cm with system_prompts := dictErase name cm.system_prompts }
    if cm.active_context = name then
      (set_context now cm' "general").map Prod.snd
    else .ok cm'

/-- `reset_to_default()`. -/
def reset_to_default (now : Datetime) (cm : ContextManager) : ContextManager :=
  { system_prompts := DEFAULT_CONTEXTS
    active_context := "general"
    context_history := []
    max_history := cm.max_history
    last_change := now }

/-- `get_context_history()` (returns a copy of the list). -/
def get_context_history (cm : ContextManager) : List CtxHistEntry :=
  cm.context_history

end ContextManager

/-! ## RetryHandler (`src/retry_handler.py`)

Errors are embedded as an inductive covering the exception shapes the module
distinguishes; Python's `isinstance` dispatch on exception classes is the
`instanceOf` relation (`Exception` matches everything). A registered handler
key is a class or tuple of classes, so it is a list of `ErrType`; handler
*bodies* are pure logging and are not modelled, only the key set matters. -/

/-- Python exception values seen by the retry module. -/
inductive PyError where
  | apiError (status_code : Nat) : PyError
  | connectionError : PyError
  | timeoutError : PyError
  | valueError : PyError
  | runtimeError : PyError
deriving DecidableEq

/-- Exception classes usable as `register_error_handler` keys. -/
inductive ErrType where
  | apiErrorT : ErrType
  | connectionErrorT : ErrType
  | timeoutErrorT : ErrType
  | valueErrorT : ErrType
  | runtimeErrorT : ErrType
  | exceptionT : ErrType
deriving DecidableEq

/-- Python `isinstance(e, t)`; the base class `Exception` matches every error. -/
def instanceOf (e : PyError) : ErrType → Bool
  | .exceptionT => true
  | .apiErrorT => match e with | .apiError _ => true | _ => false
  | .connectionErrorT => match e with | .connectionError => true | _ => false
  | .timeoutErrorT => match e with | .timeoutError => true | _ => false
  | .valueErrorT => match e with | .valueError => true | _ => false
  | .runtimeErrorT => match e with | .runtimeError => true | _ => false

/-- The key set of `self.error_handlers` (a dict keyed by class/tuple). -/
abbrev Registry : Type := List (List ErrType)

/-- `register_error_handler`: dict assignment — an existing key keeps its
position (its handler is overwritten), a new key is appended. -/
def registerKey (reg : Registry) (key : List ErrType) : Registry :=
  if key ∈ reg then reg else reg ++ [key]

/-- Handler keys after `RetryHandler._register_default_handlers`:
`APIError` (registered twice, second overwrites) and the tuple
`(ConnectionError, TimeoutError)`. -/
def defaultRegistry : Registry :=
  registerKey (registerKey (registerKey [] [.apiErrorT]) [.apiErrorT])
    [.connectionErrorT, .timeoutErrorT]

/-- Handler keys after `ChatSession._register_default_error_handlers` has
additionally registered `anthropic.APIError` (overwrite) and `Exception`. -/
def chatSessionRegistry : Registry :=
  registerKey (registerKey defaultRegistry [.apiErrorT]) [.exceptionT]

/-- `is_retryable_error(error)`: API errors are retryable exactly for status
429/500/502/503/504; `ConnectionError`/`TimeoutError` are retryable; any other
error is retryable iff it is an instance of some registered handler key. -/
def isRetryableError (reg : Registry) (error : PyError) : Bool :=
  match error with
  | .apiError s => s ∈ [429, 500, 502, 503, 504]
  | .connectionError => true
  | .timeoutError => true
  | _ => reg.any (fun key => key.any (instanceOf error))

/-- The retry loop body of `async_retry` (and of the synchronous `retry`
wrapper, which shares the same control flow): run the operation once per
attempt index, return the first success; on a failure stop immediately if the
error is not retryable or this was the last attempt, else sleep and continue.
`op i` is the outcome of the `i`-th invocation; the result is paired with the
number of invocations performed, and is `none` only for an empty attempt list
(Python's `raise last_error` with `last_error = None`). -/
def retryGo {α : Type} (reg : Registry) (op : Nat → Except PyError α) :
    List Nat → Option (Except PyError α × Nat)
  | [] => none
  | [i] =>
    match op i with
    | .ok a => some (.ok a, 1)
    | .error e => some (.error e, 1)
  | i :: j :: rest =>
    match op i with
    | .ok a => some (.ok a, 1)
    | .error e =>
      if isRetryableError reg e then
        match retryGo reg op (j :: rest) with
        | some (r, c) => some (r, c + 1)
        | none => none
      else some (.error e, 1)

/-- `async_retry(func)` with effective `max_retries = n`: attempts `0 .. n-1`. -/
def asyncRetry {α : Type} (reg : Registry) (op : Nat → Except PyError α) (n : Nat) :
    Option (Except PyError α × Nat) :=
  retryGo reg op (List.range n)

/-! ## ChatSession (`src/chat_session.py`) -/

/-- The `content` of a message: a plain string or a list of content blocks
(`Union[str, List[Dict]]`); blocks are opaque JSON objects. -/
inductive Content where
  | text (s : String) : Content
  | blocks (bs : List Json) : Content

/-- The `MessageContent` dataclass: `{role, content, metadata}`. -/
structure MessageContent where
  role : String
  content : Content
  metadata : Option Json

/-- State of a `ChatSession` (the API client, vision handler and retry
handler components carry no session-visible state beyond the registered
handler keys, which are modelled by `chatSessionRegistry`). -/
structure ChatSession where
  name : String
  model : String
  max_tokens : Int
  temperature : Rat
  messages : List MessageContent
  total_tokens_used : Int
  context_manager : ContextManager

namespace ChatSession

/-- `ChatSession.__init__` (constructor defaults:
`model="claude-3-5-sonnet-20241022"`, `max_tokens=8000`, `temperature=0.1`,
`name="Default Session"`; the name parameter is placed first here so that
call sites which override only the session name stay positional). -/
def init (now : Datetime) (name : String := "Default Session")
    (model : String := "claude-3-5-sonnet-20241022")
    (max_tokens : Int := 8000) (temperature : Rat := 1/10) : ChatSession :=
  { name := name
    model := model
    max_tokens := max_tokens
    temperature := temperature
    messages := []
    total_tokens_used := 0
    context_manager := ContextManager.init now }

/-- `add_message(role, content, metadata)`: unconditionally appends a
`MessageContent` to the log — the source performs no validation of the role
or the content and cannot fail. -/
def add_message (s : ChatSession) (role : String) (content : Content)
    (metadata : Option Json := none) : ChatSession :=
  { s with messages := s.messages ++ [⟨role, content, metadata⟩] }

/-- The message list `get_response` transmits to the remote service: after
appending the user message, `make_request` sends
`[{"role": msg.role, "content": msg.content} for msg in self.messages]`
verbatim — one entry per stored message, in order. -/
def getResponseMessages (s : ChatSession) (user_input : String) :
    List (String × Content) :=
  ((add_message s "user" (.text user_input)).messages).map fun m => (m.role, m.content)

end ChatSession

/-! ### Session serialization (`save_session` / `load_session`)

`save_session` builds a Python dict and calls
`encrypt_data(json.dumps(data))`. `json.dumps` succeeds only when every value
in the dict is JSON-serializable; the `context_history` entries hold raw
`datetime` objects (`{'context': ..., 'timestamp': datetime}` from
`ContextManager.set_context`), on which `json.dumps` raises
`TypeError: Object of type datetime is not JSON serializable`. Serialization
is therefore `Option`-valued and fails whenever `context_history` is
non-empty. (`ConversationManager.save_session` by contrast stores
`last_active.isoformat()`, a string, and always serializes.) -/

/-- JSON rendering of a message's content. -/
def contentToJson : Content → Json
  | .text s => .jstr s
  | .blocks bs => .jarr bs

/-- JSON rendering of one message dict `{"role", "content", "metadata"}`
(also the rendering of `msg.__dict__`, whose dataclass field order is
role, content, metadata). A `None` metadata becomes JSON `null`. -/
def messageToJson (m : MessageContent) : Json :=
  .jobj [("role", .jstr m.role), ("content", contentToJson m.content),
         ("metadata", match m.metadata with | none => .jnull | some j => j)]

/-- `json.dumps` applied to `context_history`: succeeds only for the empty
list, since every entry carries a non-serializable `datetime` timestamp. -/
def ctxHistoryToJson : List CtxHistEntry → Option Json
  | [] => some (.jarr [])
  | _ :: _ => none

/-- The `custom_contexts` sub-dict written by `ChatSession.save_session`:
every `system_prompts` entry whose key is not a default context. -/
def customContexts (cm : ContextManager) : List (String × String) :=
  cm.system_prompts.filter
    (fun p => (dictGet p.1 ContextManager.DEFAULT_CONTEXTS).isNone)

/-- `ChatSession.save_session`'s serialized payload (the argument of
`encrypt_data`), or `none` when `json.dumps` raises on the history. -/
def chatSaveJson (s : ChatSession) : Option Json :=
  match ctxHistoryToJson (ContextManager.get_context_history s.context_manager) with
  | none => none
  | some hist => some (.jobj
      [("name", .jstr s.name),
       ("model", .jstr s.model),
       ("max_tokens", .jint s.max_tokens),
       ("temperature", .jfloat s.temperature),
       ("messages", .jarr (s.messages.map messageToJson)),
       ("total_tokens_used", .jint s.total_tokens_used),
       ("active_context", .jstr s.context_manager.active_context),
       ("context_history", hist),
       ("custom_contexts", .jobj
          ((customContexts s.context_manager).map fun p => (p.1, Json.jstr p.2)))])

/-- Field access on a decoded JSON object (`data[k]` / `data.get(k)` /
`k in data`). -/
def jGet (k : String) : Json → Option Json
  | .jobj fields => dictGet k fields
  | _ => none

/-- Decoding a stored message's `content` back into the value passed to
`add_message` (a JSON string loads as a Python `str`, a JSON array as a
list of blocks). -/
def contentOfJson : Json → Option Content
  | .jstr s => some (.text s)
  | .jarr bs => some (.blocks bs)
  | _ => none

/-- Restore one message from its stored dict: `msg_data["role"]`,
`msg_data["content"]`, `msg_data.get("metadata")` (JSON `null` loads as
Python `None`). -/
def messageOfJson (j : Json) : Option MessageContent :=
  match jGet "role" j, (jGet "content" j).bind contentOfJson with
  | some (.jstr role), some content =>
    some ⟨role, content,
      match jGet "metadata" j with
      | none => none
      | some .jnull => none
      | some m => some m⟩
  | _, _ => none

/-- Replay `session.add_message(...)` over the stored message dicts. -/
def restoreMessages (s : ChatSession) : List Json → Option ChatSession
  | [] => some s
  | j :: rest =>
    match messageOfJson j with
    | none => none
    | some m => restoreMessages (s.add_message m.role m.content m.metadata) rest

/-- Replay `session.add_message(role, content)` over stored message dicts
*without* metadata, as `ConversationManager.load_session` does. -/
def restoreMessagesNoMeta (s : ChatSession) : List Json → Option ChatSession
  | [] => some s
  | j :: rest =>
    match jGet "role" j, (jGet "content" j).bind contentOfJson with
    | some (.jstr role), some content =>
      restoreMessagesNoMeta (s.add_message role content) rest
    | _, _ => none

/-- Replay `add_custom_context(name, prompt)` over the stored
`custom_contexts` items (a non-string prompt or a reserved name raises). -/
def restoreCustomContexts (cm : ContextManager) :
    List (String × Json) → Option ContextManager
  | [] => some cm
  | (name, .jstr prompt) :: rest =>
    match cm.add_custom_context name prompt with
    | .ok cm' => restoreCustomContexts cm' rest
    | .error _ => none
  | _ => none

/-- `ChatSession.load_session` applied to the decrypted, JSON-decoded blob:
construct a fresh session from `model`/`max_tokens`/`temperature`/`name`,
replay `add_message` over `data["messages"]`, restore `total_tokens_used`,
replay `add_custom_context` over `data["custom_contexts"]` (when present),
then `set_context(data["active_context"])` (when present). Any exception in
the source (missing key, type mismatch, unknown context) is `none`. -/
def chatLoadJson (now : Datetime) (data : Json) : Option ChatSession :=
  match jGet "model" data, jGet "max_tokens" data, jGet "temperature" data,
        jGet "name" data with
  | some (.jstr model), some (.jint maxTok), some (.jfloat temp),
    some (.jstr name) =>
    let fresh := ChatSession.init now name model maxTok temp
    match jGet "messages" data with
    | some (.jarr msgs) =>
      match restoreMessages fresh msgs with
      | none => none
      | some s1 =>
        match jGet "total_tokens_used" data with
        | some (.jint total) =>
          let s2 := { s1 with total_tokens_used := total }
          let cmAfterCustom :=
            match jGet "custom_contexts" data with
            | none => some s2.context_manager
            | some (.jobj items) => restoreCustomContexts s2.context_manager items
            | some _ => none
          match cmAfterCustom with
          | none => none
          | some cm1 =>
            match jGet "active_context" data with
            | none => some { s2 with context_manager := cm1 }
            | some (.jstr active) =>
              match cm1.set_context now active with
              | .ok (_, cm2) => some { s2 with context_manager := cm2 }
              | .error _ => none
            | some _ => none
        | _ => none
    | _ => none
  | _, _, _, _ => none

/-! ## Consecutive-message merging (`docs/original_chat.py`,
`ChatApp.chat_with_claude`)

In the original monolithic version messages are dicts with plain string
contents. `chat_with_claude` filters the session history before the remote
call: blank messages are skipped, a message whose role differs from the
previous kept one is appended, a consecutive `user` message is merged into
the previous kept message with a `"\n\n"` separator (a consecutive
`assistant` message is silently dropped); then a trailing blank assistant
message is popped, and the new user message is merged into a trailing user
turn or appended. -/

/-- Python's `str.strip()`: drop leading and trailing whitespace (defined
over the character list so that it evaluates by kernel reduction). -/
def pyStrip (s : String) : String :=
  ⟨((s.data.dropWhile Char.isWhitespace).reverse.dropWhile Char.isWhitespace).reverse⟩

/-- Python's `str.endswith(post)` (over the character list). -/
def pyEndsWith (s post : String) : Bool :=
  post.data.isSuffixOf s.data

/-- Python's `s[:-n]` slicing, i.e. drop the last `n` characters. -/
def pyDropRight (s : String) (n : Nat) : String :=
  ⟨s.data.take (s.data.length - n)⟩

/-- Replace the last element of a list (`filtered_messages[-1] = ...`). -/
def modifyLast {α : Type} (f : α → α) : List α → List α
  | [] => []
  | [a] => [f a]
  | a :: b :: rest => a :: modifyLast f (b :: rest)

/-- The history-filtering loop of `chat_with_claude` (`last_role` starts as
`None`; `acc` is `filtered_messages`). -/
def chatFilterAux (lastRole : Option String) (acc : List (String × String)) :
    List (String × String) → List (String × String)
  | [] => acc
  | (role, content) :: rest =>
    if pyStrip content = "" then chatFilterAux lastRole acc rest
    else if lastRole ≠ some role then
      chatFilterAux (some role) (acc ++ [(role, content)]) rest
    else if role = "user" then
      chatFilterAux lastRole (modifyLast (fun p => (p.1, p.2 ++ "\n\n" ++ content)) acc) rest
    else chatFilterAux lastRole acc rest

/-- The trailing-blank-assistant pop of `chat_with_claude`. -/
def dropTrailingBlankAssistant (l : List (String × String)) : List (String × String) :=
  match l.getLast? with
  | some (role, content) =>
    if role = "assistant" ∧ pyStrip content = "" then l.dropLast else l
  | none => l

/-- The full transmitted-message construction of `chat_with_claude`: filter
the history, pop a trailing blank assistant turn, then merge the new user
message into a trailing user turn or append it. -/
def chatWithClaudeMessages (history : List (String × String)) (message : String) :
    List (String × String) :=
  let filtered := dropTrailingBlankAssistant (chatFilterAux none [] history)
  match filtered.getLast? with
  | some (role, _) =>
    if role = "user" then
      modifyLast (fun p => (p.1, p.2 ++ "\n\n" ++ message)) filtered
    else filtered ++ [("user", message)]
  | none => [("user", message)]

/-! ## ConversationManager (`src/conversation_manager.py`)

The storage directory is modelled as part of the state: `files` maps a file
name (`f"{session_name}.enc"`, relative to `storage_dir`) to the decoded JSON
payload of the file — i.e. the value `v` such that the file's bytes are
`encrypt_data(json.dumps(v))`; the `decrypt_data`/`json.loads` round trip of
this codec is treated pointwise (see the C4/C5 theorems for the explicit
codec assumptions). -/

/-- The `ValueError`/`FileNotFoundError` kinds raised by the manager,
distinguished in the source by message text. -/
inductive MgrError where
  | unknownSession : MgrError
  | duplicateName : MgrError
  | cannotDeleteLast : MgrError
  | loadFailed : MgrError
deriving DecidableEq

/-- State of a `ConversationManager` plus its storage directory contents. -/
structure Manager where
  storage_dir : String
  sessions : List (String × ChatSession)
  current_session : Option String
  last_active : List (String × Datetime)
  files : List (String × Json)

namespace Manager

/-- `create_new_session(session_name)`: duplicate names are rejected; the new
session becomes current only when no current session exists yet. -/
def create_new_session (now : Datetime) (st : Manager) (session_name : String) :
    Except MgrError Manager :=
  if (dictGet session_name st.sessions).isSome then .error .duplicateName
  else .ok
    { st with
      sessions := st.sessions ++ [(session_name, ChatSession.init now session_name)]
      last_active := dictInsert session_name now st.last_active
      current_session :=
        match st.current_session with
        | none => some session_name
        | some c => some c }

/-- `switch_session(session_name)`: fails on an absent name. -/
def switch_session (now : Datetime) (st : Manager) (session_name : String) :
    Except MgrError Manager :=
  if (dictGet session_name st.sessions).isNone then .error .unknownSession
  else .ok { st with current_session := some session_name
                     last_active := dictInsert session_name now st.last_active }

/-- `rename_session(old_name, new_name)`: fails on an absent old name or a
present new name; moves the dict entries (the renamed session goes to the end
of insertion order, as `d[new] = d.pop(old)` does), updates `current_session`,
and renames the on-disk file when it exists. -/
def rename_session (st : Manager) (old_name new_name : String) :
    Except MgrError Manager :=
  if (dictGet old_name st.sessions).isNone then .error .unknownSession
  else if (dictGet new_name st.sessions).isSome then .error .duplicateName
  else .ok
    { st with
      sessions :=
        match dictGet old_name st.sessions with
        | some s => dictErase old_name st.sessions ++ [(new_name, s)]
        | none => st.sessions
      last_active :=
        match dictGet old_name st.last_active with
        | some t => dictErase old_name st.last_active ++ [(new_name, t)]
        | none => st.last_active
      current_session :=
        if st.current_session = some old_name then some new_name else st.current_session
      files :=
        match dictGet (old_name ++ ".enc") st.files with
        | some v => dictInsert (new_name ++ ".enc") v (dictErase (old_name ++ ".enc") st.files)
        | none => st.files }

/-- `delete_session(session_name=None)`: defaults to the current session;
fails with `unknownSession` on an absent name (including a `None` current),
then with `cannotDeleteLast` when the store holds exactly one session;
otherwise removes the on-disk file and both dict entries, and when the
deleted session was current, `current` becomes `next(iter(self.sessions))` —
the first remaining session in insertion order. -/
def deleteNamed (st : Manager) (n : String) : Except MgrError Manager :=
  if (dictGet n st.sessions).isNone then .error .unknownSession
  else if st.sessions.length = 1 then .error .cannotDeleteLast
  else
    let sessions' := dictErase n st.sessions
    .ok { st with
          sessions := sessions'
          last_active := dictErase n st.last_active
          files := dictErase (n ++ ".enc") st.files
          current_session :=
            if st.current_session = some n then
              (sessions'.head?).map Prod.fst
            else st.current_session }

def delete_session (st : Manager) (session_name : Option String := none) :
    Except MgrError Manager :=
  match session_name with
  | some n => st.deleteNamed n
  | none =>
    match st.current_session with
    | some n => st.deleteNamed n
    | none => .error .unknownSession

/-- `ConversationManager.save_session`'s serialized payload for one session
(the argument of `encrypt_data(json.dumps(...))`): the four-field dict
`{name, messages, context, last_active}` with `messages` the list of
`msg.__dict__` and `last_active` an `isoformat()` string. -/
def managerSaveJson (session_name : String) (s : ChatSession) (la : Datetime) : Json :=
  .jobj [("name", .jstr session_name),
         ("messages", .jarr (s.messages.map messageToJson)),
         ("context", .jstr s.context_manager.active_context),
         ("last_active", .jstr la.iso)]

/-- `save_session(session_name)`: fails on an absent name (or a missing
`last_active` stamp, a `KeyError` in the source); writes the encrypted
payload to `f"{session_name}.enc"`. -/
def save_session (st : Manager) (session_name : String) : Except MgrError Manager :=
  match dictGet session_name st.sessions, dictGet session_name st.last_active with
  | some s, some la =>
    .ok { st with files :=
            dictInsert (session_name ++ ".enc") (managerSaveJson session_name s la) st.files }
  | _, _ => .error .unknownSession

/-- `ConversationManager.load_session(session_name)` applied to the decoded
file payload: build a fresh `ChatSession(name=session_name)`, replay
`add_message(role, content)` over `data['messages']` (metadata is *not*
restored), `set_context(data['context'])` when present, restore
`last_active` (defaulting to now), then install the session. Any exception
(missing file or key, type error, unknown context) fails the load. -/
def load_session (now : Datetime) (st : Manager) (session_name : String) :
    Except MgrError Manager :=
  match dictGet (session_name ++ ".enc") st.files with
  | none => .error .loadFailed
  | some data =>
    match jGet "messages" data with
    | some (.jarr msgs) =>
      let fresh := ChatSession.init now session_name
      match restoreMessagesNoMeta fresh msgs with
      | none => .error .loadFailed
      | some s1 =>
        let cmRestored :=
          match jGet "context" data with
          | none => some s1.context_manager
          | some (.jstr c) =>
            match s1.context_manager.set_context now c with
            | .ok (_, cm') => some cm'
            | .error _ => none
          | some _ => none
        match cmRestored with
        | none => .error .loadFailed
        | some cm =>
          let la :=
            match jGet "last_active" data with
            | some (.jstr t) => some (Datetime.mk t)
            | none => some now
            | some _ => none
          match la with
          | none => .error .loadFailed
          | some t =>
            .ok { st with
                  sessions :=
                    dictInsert session_name { s1 with context_manager := cm } st.sessions
                  last_active := dictInsert session_name t st.last_active }
    | _ => .error .loadFailed

/-- `load_all_sessions()`: for every directory entry ending in `.enc`, try
`load_session(filename[:-4])`; a failed load is logged and skipped. -/
def load_all_sessions (now : Datetime) (st : Manager) : Manager :=
  (st.files.map Prod.fst).foldl
    (fun acc fname =>
      if pyEndsWith fname ".enc" then
        match load_session now acc (pyDropRight fname 4) with
        | .ok st' => st'
        | .error _ => acc
      else acc)
    st

/-- `ConversationManager.__init__(storage_dir)`: empty state, load every
stored session, then create a `"Default Session"` only if no session was
loaded. -/
def init (now : Datetime) (storage_dir : String) (disk : List (String × Json)) :
    Manager :=
  let st0 : Manager :=
    { storage_dir := storage_dir, sessions := [], current_session := none,
      last_active := [], files := disk }
  let st1 := load_all_sessions now st0
  if st1.sessions.isEmpty then
    match create_new_session now st1 "Default Session" with
    | .ok st2 => st2
    | .error _ => st1
  else st1

end Manager

/-! ## Dictionary lemmas -/

theorem dictGet_insert {α : Type} (k k' : String) (v : α) (l : List (String × α)) :
    dictGet k' (dictInsert k v l) = if k = k' then some v else dictGet k' l := by
  induction l with
  | nil => by_cases h : k = k' <;> simp [dictInsert, dictGet, h]
  | cons a rest ih =>
    obtain ⟨ka, va⟩ := a
    by_cases hka : ka = k
    · subst hka
      by_cases h : ka = k' <;> simp [dictInsert, dictGet, h]
    · by_cases h : ka = k'
      · subst h
        have hne : ¬ k = ka := fun hh => hka hh.symm
        simp [dictInsert, dictGet, hka, hne]
      · simp [dictInsert, dictGet, hka, h, ih]

theorem dictGet_erase {α : Type} (k k' : String) (l : List (String × α)) :
    dictGet k' (dictErase k l) = if k = k' then none else dictGet k' l := by
  induction l with
  | nil => by_cases h : k = k' <;> simp [dictErase, dictGet, h]
  | cons a rest ih =>
    obtain ⟨ka, va⟩ := a
    by_cases hka : ka = k
    · subst hka
      by_cases h : ka = k'
      · subst h
        simp [dictErase, dictGet, ih]
      · simp [dictErase, dictGet, h, ih]
    · by_cases h : ka = k'
      · subst h
        have hne : ¬ k = ka := fun hh => hka hh.symm
        simp [dictErase, dictGet, hka, hne]
      · simp [dictErase, dictGet, hka, h, ih]

theorem dictGet_append {α : Type} (k : String) (l1 l2 : List (String × α)) :
    dictGet k (l1 ++ l2) =
      match dictGet k l1 with
      | some v => some v
      | none => dictGet k l2 := by
  induction l1 with
  | nil => simp [dictGet]
  | cons a rest ih =>
    obtain ⟨ka, va⟩ := a
    by_cases hk : ka = k <;> simp [dictGet, hk, ih]

theorem mem_dictKeys_iff {α : Type} (k : String) (l : List (String × α)) :
    k ∈ dictKeys l ↔ (dictGet k l).isSome := by
  induction l with
  | nil => simp [dictKeys, dictGet]
  | cons a rest ih =>
    obtain ⟨ka, va⟩ := a
    simp only [dictKeys, List.map_cons, List.mem_cons, dictGet]
    by_cases hk : ka = k
    · subst hk
      simp
    · rw [if_neg hk]
      simp only [dictKeys] at ih
      constructor
      · rintro (h | h)
        · exact absurd h.symm hk
        · exact ih.mp h
      · intro h
        exact Or.inr (ih.mpr h)

theorem mem_dictKeys_insert {α : Type} (x k : String) (v : α) (l : List (String × α)) :
    x ∈ dictKeys (dictInsert k v l) ↔ x = k ∨ x ∈ dictKeys l := by
  rw [mem_dictKeys_iff, dictGet_insert, mem_dictKeys_iff]
  by_cases h : k = x
  · subst h
    simp
  · rw [if_neg h]
    constructor
    · exact Or.inr
    · rintro (hx | hx)
      · exact absurd hx.symm h
      · exact hx

theorem nodup_dictKeys_insert {α : Type} (k : String) (v : α) (l : List (String × α))
    (h : (dictKeys l).Nodup) : (dictKeys (dictInsert k v l)).Nodup := by
  induction l with
  | nil => simp [dictKeys, dictInsert]
  | cons a rest ih =>
    obtain ⟨ka, va⟩ := a
    simp only [dictKeys, List.map_cons, List.nodup_cons] at h
    by_cases hka : ka = k
    · subst hka
      rw [show dictInsert ka v ((ka, va) :: rest) = (ka, v) :: rest from by
        simp [dictInsert]]
      simp only [dictKeys, List.map_cons, List.nodup_cons]
      exact h
    · rw [show dictInsert k v ((ka, va) :: rest) = (ka, va) :: dictInsert k v rest from by
        simp [dictInsert, hka]]
      simp only [dictKeys, List.map_cons, List.nodup_cons]
      refine ⟨?_, ih h.2⟩
      intro hmem
      rw [show (List.map Prod.fst (dictInsert k v rest) : List String)
            = dictKeys (dictInsert k v rest) from rfl, mem_dictKeys_insert] at hmem
      rcases hmem with h' | h'
      · exact hka h'
      · exact h.1 h'

theorem nodup_dictKeys_erase {α : Type} (k : String) (l : List (String × α))
    (h : (dictKeys l).Nodup) : (dictKeys (dictErase k l)).Nodup := by
  induction l with
  | nil => simp [dictKeys, dictErase]
  | cons a rest ih =>
    obtain ⟨ka, va⟩ := a
    simp only [dictKeys, List.map_cons, List.nodup_cons] at h
    by_cases hka : ka = k
    · rw [show dictErase k ((ka, va) :: rest) = dictErase k rest from by
        simp [dictErase, hka]]
      exact ih h.2
    · rw [show dictErase k ((ka, va) :: rest) = (ka, va) :: dictErase k rest from by
        simp [dictErase, hka]]
      simp only [dictKeys, List.map_cons, List.nodup_cons]
      refine ⟨?_, ih h.2⟩
      intro hmem
      rw [show (List.map Prod.fst (dictErase k rest) : List String)
            = dictKeys (dictErase k rest) from rfl, mem_dictKeys_iff,
          dictGet_erase] at hmem
      by_cases hk : k = ka
      · rw [if_pos hk] at hmem
        simp at hmem
      · rw [if_neg hk] at hmem
        exact h.1 ((mem_dictKeys_iff ka rest).mpr hmem)

theorem dictGet_head {α : Type} (l : List (String × α)) (p : String × α)
    (h : l.head? = some p) : dictGet p.1 l = some p.2 := by
  cases l with
  | nil => simp at h
  | cons a rest =>
    simp only [List.head?_cons, Option.some.injEq] at h
    subst h
    simp [dictGet]

theorem dictErase_ne_nil {α : Type} (k : String) (l : List (String × α))
    (hnd : (dictKeys l).Nodup) (hlen : 2 ≤ l.length) : dictErase k l ≠ [] := by
  match l, hlen with
  | p1 :: p2 :: rest, _ =>
    obtain ⟨k1, v1⟩ := p1
    obtain ⟨k2, v2⟩ := p2
    simp only [dictKeys, List.map_cons, List.nodup_cons, List.mem_cons] at hnd
    by_cases h1 : k1 = k
    · have h2 : ¬ k2 = k := fun h2 => hnd.1 (Or.inl (h1.trans h2.symm))
      simp [dictErase, h1, h2]
    · simp [dictErase, h1]

/-! ## ContextRegistry invariant (claims C9) -/

/-- The ContextRegistry invariant of the spec: the five built-in entries are
present with their original prompt text, and the active context is a key of
`system_prompts`. -/
def CtxInv (cm : ContextManager) : Prop :=
  (∀ p ∈ ContextManager.DEFAULT_CONTEXTS, dictGet p.1 cm.system_prompts = some p.2) ∧
  (dictGet cm.active_context cm.system_prompts).isSome

theorem dictGet_isSome_of_mem {α : Type} {p : String × α} {l : List (String × α)}
    (hp : p ∈ l) : (dictGet p.1 l).isSome := by
  rw [← mem_dictKeys_iff]
  exact List.mem_map_of_mem Prod.fst hp

set_option maxRecDepth 8192 in
theorem defaults_lookup_self :
    ∀ p ∈ ContextManager.DEFAULT_CONTEXTS,
      dictGet p.1 ContextManager.DEFAULT_CONTEXTS = some p.2 := by
  decide

theorem ctxInv_init (now : Datetime) : CtxInv (ContextManager.init now) :=
  ⟨defaults_lookup_self,
   show (dictGet "general" ContextManager.DEFAULT_CONTEXTS).isSome from by decide⟩

theorem set_context_ok {now : Datetime} {cm : ContextManager} {ty p : String}
    {cm' : ContextManager} (h : ContextManager.set_context now cm ty = .ok (p, cm')) :
    dictGet ty cm.system_prompts = some p ∧
    cm'.system_prompts = cm.system_prompts ∧ cm'.active_context = ty := by
  unfold ContextManager.set_context at h
  cases hget : dictGet ty cm.system_prompts with
  | none => rw [hget] at h; exact absurd h (by simp)
  | some q =>
    rw [hget] at h
    simp only [Except.ok.injEq, Prod.mk.injEq] at h
    obtain ⟨hq, hcm⟩ := h
    subst hq
    exact ⟨rfl, by rw [← hcm], by rw [← hcm]⟩

theorem set_context_error_of_absent (now : Datetime) (cm : ContextManager)
    (ty : String) (h : dictGet ty cm.system_prompts = none) :
    ContextManager.set_context now cm ty = .error .unknownContext := by
  unfold ContextManager.set_context
  rw [h]

theorem ctxInv_set_context {now : Datetime} {cm : ContextManager} {ty p : String}
    {cm' : ContextManager} (hinv : CtxInv cm)
    (h : ContextManager.set_context now cm ty = .ok (p, cm')) : CtxInv cm' := by
  obtain ⟨hget, hprompts, hactive⟩ := set_context_ok h
  constructor
  · intro q hq
    rw [hprompts]
    exact hinv.1 q hq
  · rw [hprompts, hactive, hget]
    rfl

theorem add_custom_context_error_of_reserved (cm : ContextManager) (name prompt : String)
    (h : (dictGet name ContextManager.DEFAULT_CONTEXTS).isSome) :
    cm.add_custom_context name prompt = .error .reservedName := by
  unfold ContextManager.add_custom_context
  rw [if_pos h]

theorem add_custom_context_ok {cm : ContextManager} {name prompt : String}
    {cm' : ContextManager} (h : cm.add_custom_context name prompt = .ok cm') :
    ¬ (dictGet name ContextManager.DEFAULT_CONTEXTS).isSome ∧
    cm'.system_prompts = dictInsert name prompt cm.system_prompts ∧
    cm'.active_context = cm.active_context := by
  unfold ContextManager.add_custom_context at h
  by_cases hdef : (dictGet name ContextManager.DEFAULT_CONTEXTS).isSome
  · rw [if_pos hdef] at h
    exact absurd h (by simp)
  · rw [if_neg hdef] at h
    simp only [Except.ok.injEq] at h
    exact ⟨hdef, by rw [← h], by rw [← h]⟩

theorem ctxInv_add_custom_context {cm : ContextManager} {name prompt : String}
    {cm' : ContextManager} (hinv : CtxInv cm)
    (h : cm.add_custom_context name prompt = .ok cm') : CtxInv cm' := by
  obtain ⟨hdef, hprompts, hactive⟩ := add_custom_context_ok h
  constructor
  · intro q hq
    rw [hprompts, dictGet_insert]
    have hq1 : (dictGet q.1 ContextManager.DEFAULT_CONTEXTS).isSome :=
      dictGet_isSome_of_mem hq
    have hne : ¬ name = q.1 := by
      intro hh
      rw [hh] at hdef
      exact hdef hq1
    rw [if_neg hne]
    exact hinv.1 q hq
  · rw [hprompts, hactive, dictGet_insert]
    by_cases hna : name = cm.active_context
    · rw [if_pos hna]; rfl
    · rw [if_neg hna]; exact hinv.2

theorem remove_custom_context_error_of_reserved (now : Datetime) (cm : ContextManager)
    (name : String) (h : (dictGet name ContextManager.DEFAULT_CONTEXTS).isSome) :
    cm.remove_custom_context now name = .error .reservedName := by
  unfold ContextManager.remove_custom_context
  rw [if_pos h]

theorem remove_custom_context_error_of_absent (now : Datetime) (cm : ContextManager)
    (name : String) (hdef : ¬ (dictGet name ContextManager.DEFAULT_CONTEXTS).isSome)
    (habs : dictGet name cm.system_prompts = none) :
    cm.remove_custom_context now name = .error .unknownContext := by
  unfold ContextManager.remove_custom_context
  rw [if_neg hdef, if_pos (by rw [habs]; rfl)]

theorem ctxInv_remove_custom_context {now : Datetime} {cm : ContextManager}
    {name : String} {cm' : ContextManager} (hinv : CtxInv cm)
    (h : cm.remove_custom_context now name = .ok cm') :
    CtxInv cm' ∧ (cm.active_context = name → cm'.active_context = "general") := by
  unfold ContextManager.remove_custom_context at h
  by_cases hdef : (dictGet name ContextManager.DEFAULT_CONTEXTS).isSome
  · rw [if_pos hdef] at h
    exact absurd h (by simp)
  rw [if_neg hdef] at h
  by_cases habs : (dictGet name cm.system_prompts).isNone
  · rw [if_pos habs] at h
    exact absurd h (by simp)
  rw [if_neg habs] at h
  have hgen : ¬ name = "general" := by
    intro hh
    exact hdef (by rw [hh]; decide)
  have hdefaults : ∀ p ∈ ContextManager.DEFAULT_CONTEXTS,
      dictGet p.1 (dictErase name cm.system_prompts) = some p.2 := by
    intro q hq
    have hq1 : (dictGet q.1 ContextManager.DEFAULT_CONTEXTS).isSome :=
      dictGet_isSome_of_mem hq
    have hne : ¬ name = q.1 := by
      intro hh
      rw [hh] at hdef
      exact hdef hq1
    rw [dictGet_erase, if_neg hne]
    exact hinv.1 q hq
  by_cases hact : cm.active_context = name
  · rw [if_pos hact] at h
    cases hset : ContextManager.set_context now
        { cm with system_prompts := dictErase name cm.system_prompts } "general" with
    | error e => rw [hset] at h; exact absurd h (by simp [Except.map])
    | ok pr =>
      obtain ⟨p, cm''⟩ := pr
      rw [hset] at h
      simp only [Except.map, Except.ok.injEq] at h
      subst h
      obtain ⟨hget, hprompts, hactive⟩ := set_context_ok hset
      refine ⟨⟨?_, ?_⟩, fun _ => hactive⟩
      · intro q hq
        rw [hprompts]
        exact hdefaults q hq
      · rw [hprompts, hactive, hget]
        rfl
  · rw [if_neg hact] at h
    simp only [Except.ok.injEq] at h
    subst h
    refine ⟨⟨hdefaults, ?_⟩, fun hh => absurd hh hact⟩
    rw [dictGet_erase, if_neg (fun hh => hact hh.symm)]
    exact hinv.2

theorem ctxInv_reset (now : Datetime) (cm : ContextManager) :
    CtxInv (cm.reset_to_default now) :=
  ⟨defaults_lookup_self,
   show (dictGet "general" ContextManager.DEFAULT_CONTEXTS).isSome from by decide⟩

/-- A fixed timestamp used by the concrete fixtures below. -/
def d0 : Datetime := ⟨"2025-01-01T00:00:00"⟩

/-- C9: The ContextRegistry invariant — the five built-ins present with their
original prompt text and the active context a key of `system_prompts` — is
preserved by `set_context`, `add_custom_context`, `remove_custom_context` and
`reset_to_default`; `set_context` fails with UnknownContext on an absent name,
`add_custom_context` and `remove_custom_context` fail with ReservedName on a
built-in name, `remove_custom_context` fails with UnknownContext on an absent
custom name (each failure returning without touching the state), and removing
the active custom entry resets the active context to `general`. -/
theorem claim_C9_context_invariant :
    (∀ (now : Datetime) (cm : ContextManager) (ty : String),
      dictGet ty cm.system_prompts = none →
      ContextManager.set_context now cm ty = .error .unknownContext) ∧
    (∀ (now : Datetime) (cm : ContextManager) (ty p : String) (cm' : ContextManager),
      CtxInv cm → ContextManager.set_context now cm ty = .ok (p, cm') → CtxInv cm') ∧
    (∀ (cm : ContextManager) (name prompt : String),
      (dictGet name ContextManager.DEFAULT_CONTEXTS).isSome →
      cm.add_custom_context name prompt = .error .reservedName) ∧
    (∀ (cm : ContextManager) (name prompt : String) (cm' : ContextManager),
      CtxInv cm → cm.add_custom_context name prompt = .ok cm' → CtxInv cm') ∧
    (∀ (now : Datetime) (cm : ContextManager) (name : String),
      (dictGet name ContextManager.DEFAULT_CONTEXTS).isSome →
      cm.remove_custom_context now name = .error .reservedName) ∧
    (∀ (now : Datetime) (cm : ContextManager) (name : String),
      ¬ (dictGet name ContextManager.DEFAULT_CONTEXTS).isSome →
      dictGet name cm.system_prompts = none →
      cm.remove_custom_context now name = .error .unknownContext) ∧
    (∀ (now : Datetime) (cm : ContextManager) (name : String) (cm' : ContextManager),
      CtxInv cm → cm.remove_custom_context now name = .ok cm' →
      CtxInv cm' ∧ (cm.active_context = name → cm'.active_context = "general")) ∧
    (∀ (now : Datetime) (cm : ContextManager), CtxInv (cm.reset_to_default now)) := by
  refine ⟨set_context_error_of_absent, ?_, ?_, ?_, ?_, ?_, ?_, ctxInv_reset⟩
  · intro now cm ty p cm' hinv h
    exact ctxInv_set_context hinv h
  · intro cm name prompt h
    exact add_custom_context_error_of_reserved cm name prompt h
  · intro cm name prompt cm' hinv h
    exact ctxInv_add_custom_context hinv h
  · intro now cm name h
    exact remove_custom_context_error_of_reserved now cm name h
  · intro now cm name hdef habs
    exact remove_custom_context_error_of_absent now cm name hdef habs
  · intro now cm name cm' hinv h
    exact ctxInv_remove_custom_context hinv h

set_option maxRecDepth 8192 in
/-- Witness for C9 at concrete inputs: a fresh manager satisfies the
invariant, `set_context("nonexistent")` raises UnknownContext,
`add_custom_context("general", "x")` raises ReservedName, and adding then
removing an active custom context resets the active context to `general`. -/
theorem claim_C9_context_invariant_witness :
    ContextManager.set_context d0 (ContextManager.init d0) "nonexistent"
      = .error .unknownContext ∧
    (ContextManager.init d0).add_custom_context "general" "x"
      = .error .reservedName ∧
    CtxInv ((ContextManager.init d0).reset_to_default d0) := by
  refine ⟨?_, ?_, claim_C9_context_invariant.2.2.2.2.2.2.2 d0 (ContextManager.init d0)⟩
  · exact claim_C9_context_invariant.1 d0 (ContextManager.init d0) "nonexistent"
      (by decide)
  · exact claim_C9_context_invariant.2.2.1 (ContextManager.init d0) "general" "x"
      (by decide)

/-! ## Retry-loop lemmas (claims C3, C6, C10) -/

theorem retryGo_all_fail {α : Type} (reg : Registry) (op : Nat → Except PyError α)
    (es : Nat → PyError) :
    ∀ (l : List Nat),
      (∀ i ∈ l, op i = .error (es i) ∧ isRetryableError reg (es i) = true) →
      ∀ ilast, l.getLast? = some ilast →
      retryGo reg op l = some (.error (es ilast), l.length) := by
  intro l
  induction l with
  | nil => intro _ ilast hlast; simp at hlast
  | cons i tl ih =>
    intro h ilast hlast
    cases tl with
    | nil =>
      have heq : ilast = i := by simpa using hlast.symm
      subst heq
      have hi := h ilast (by simp)
      simp [retryGo, hi.1]
    | cons j rest =>
      have hi := h i (by simp)
      rw [List.getLast?_cons_cons] at hlast
      have htl := ih (fun x hx => h x (by simp [hx])) ilast hlast
      simp [retryGo, hi.1, hi.2, htl]

theorem retryGo_success {α : Type} (reg : Registry) (op : Nat → Except PyError α)
    (a : α) (i : Nat) :
    ∀ (pre rest : List Nat),
      (∀ j ∈ pre, ∃ e, op j = .error e ∧ isRetryableError reg e = true) →
      op i = .ok a →
      retryGo reg op (pre ++ i :: rest) = some (.ok a, pre.length + 1) := by
  intro pre
  induction pre with
  | nil =>
    intro rest _ hok
    cases rest <;> simp [retryGo, hok]
  | cons p pre' ih =>
    intro rest h hok
    obtain ⟨e, hope, hret⟩ := h p (by simp)
    cases htl : pre' ++ i :: rest with
    | nil => exact absurd htl (by simp)
    | cons j tl =>
      have hrec := ih rest (fun x hx => h x (by simp [hx])) hok
      rw [List.cons_append, htl]
      rw [htl] at hrec
      simp [retryGo, hope, hret, hrec]

theorem asyncRetry_success {α : Type} (reg : Registry) (op : Nat → Except PyError α)
    (a : α) (es : Nat → PyError) (k n : Nat) (hk : k < n)
    (hfail : ∀ i, i < k → op i = .error (es i) ∧ isRetryableError reg (es i) = true)
    (hok : op k = .ok a) :
    asyncRetry reg op n = some (.ok a, k + 1) := by
  unfold asyncRetry
  obtain ⟨m, rfl⟩ : ∃ m, n = k + 1 + m := ⟨n - (k + 1), by omega⟩
  have hsplit : List.range (k + 1 + m) = List.range k ++ k :: List.range' (k + 1) m := by
    have hA : List.range' 0 k ++ List.range' k (m + 1) = List.range' 0 (m + 1 + k) := by
      simpa using List.range'_append 0 k (m + 1) 1
    rw [List.range_eq_range', List.range_eq_range',
      show k + 1 + m = m + 1 + k by omega, ← hA]
    rfl
  rw [hsplit]
  have hres := retryGo_success reg op a k (List.range k) (List.range' (k + 1) m)
    (fun j hj => ⟨es j, hfail j (List.mem_range.mp hj)⟩) hok
  rw [hres, List.length_range]

theorem asyncRetry_all_fail {α : Type} (reg : Registry) (op : Nat → Except PyError α)
    (es : Nat → PyError) (n : Nat) (hn : 1 ≤ n)
    (hfail : ∀ i, i < n → op i = .error (es i) ∧ isRetryableError reg (es i) = true) :
    asyncRetry reg op n = some (.error (es (n - 1)), n) := by
  unfold asyncRetry
  obtain ⟨m, rfl⟩ : ∃ m, n = m + 1 := ⟨n - 1, by omega⟩
  have hlast : (List.range (m + 1)).getLast? = some m := by
    rw [List.range_succ]
    exact List.getLast?_concat _
  have := retryGo_all_fail reg op es (List.range (m + 1))
    (fun i hi => hfail i (List.mem_range.mp hi)) m hlast
  rw [this, List.length_range]
  simp

theorem asyncRetry_first_nonretryable {α : Type} (reg : Registry)
    (op : Nat → Except PyError α) (e : PyError) (n : Nat) (hn : 1 ≤ n)
    (h0 : op 0 = .error e) (hnr : isRetryableError reg e = false) :
    asyncRetry reg op n = some (.error e, 1) := by
  obtain ⟨m, rfl⟩ : ∃ m, n = m + 1 := ⟨n - 1, by omega⟩
  cases m with
  | zero => simp [asyncRetry, List.range_succ, retryGo, h0]
  | succ m' =>
    show retryGo reg op (List.range (m' + 2)) = some (.error e, 1)
    have : List.range (m' + 2) = 0 :: 1 :: List.range' 2 m' := by
      rw [List.range_eq_range']
      rfl
    rw [this]
    simp [retryGo, h0, hnr]

/-- Any non-API error matching a registered handler key is classified
retryable by `is_retryable_error` (the handler-dict fallthrough branch). -/
theorem retryable_of_handler_match (reg : Registry) (e : PyError)
    (hapi : instanceOf e .apiErrorT = false)
    (hany : reg.any (fun key => key.any (instanceOf e)) = true) :
    isRetryableError reg e = true := by
  cases e with
  | apiError s => simp [instanceOf] at hapi
  | connectionError => rfl
  | timeoutError => rfl
  | valueError => exact hany
  | runtimeError => exact hany

/-- C3: retry-count semantics of the retry executor: `k` retryable failures
followed by a success yield exactly `k+1` invocations and the successful
result; a first-invocation non-retryable failure yields exactly one
invocation and propagates that error; `n` retryable failures yield exactly
`n` invocations and propagate the last error. -/
theorem claim_C3_retry_counts :
    (∀ (α : Type) (reg : Registry) (op : Nat → Except PyError α) (a : α)
       (es : Nat → PyError) (k n : Nat), k < n →
      (∀ i, i < k → op i = .error (es i) ∧ isRetryableError reg (es i) = true) →
      op k = .ok a → asyncRetry reg op n = some (.ok a, k + 1)) ∧
    (∀ (α : Type) (reg : Registry) (op : Nat → Except PyError α) (e : PyError)
       (n : Nat), 1 ≤ n → op 0 = .error e → isRetryableError reg e = false →
      asyncRetry reg op n = some (.error e, 1)) ∧
    (∀ (α : Type) (reg : Registry) (op : Nat → Except PyError α)
       (es : Nat → PyError) (n : Nat), 1 ≤ n →
      (∀ i, i < n → op i = .error (es i) ∧ isRetryableError reg (es i) = true) →
      asyncRetry reg op n = some (.error (es (n - 1)), n)) := by
  refine ⟨?_, ?_, ?_⟩
  · intro α reg op a es k n hk hfail hok
    exact asyncRetry_success reg op a es k n hk hfail hok
  · intro α reg op e n hn h0 hnr
    exact asyncRetry_first_nonretryable reg op e n hn h0 hnr
  · intro α reg op es n hn hfail
    exact asyncRetry_all_fail reg op es n hn hfail

/-- An operation that fails twice with a rate-limit error, then succeeds. -/
def opTwo429 : Nat → Except PyError String :=
  fun i => if i < 2 then .error (.apiError 429) else .ok "done"

/-- An operation that always fails with an authentication error. -/
def opAlways401 : Nat → Except PyError String :=
  fun _ => .error (.apiError 401)

/-- An operation that always fails with a connection error. -/
def opAlwaysConn : Nat → Except PyError String :=
  fun _ => .error .connectionError

/-- Witness for C3 at concrete operations with `max_retries = 3` and the
default handler registry: two 429 failures then success make 3 invocations;
a 401 failure makes 1 invocation; three connection failures make 3
invocations and propagate the last error. -/
theorem claim_C3_retry_counts_witness :
    asyncRetry defaultRegistry opTwo429 3 = some (.ok "done", 3) ∧
    asyncRetry defaultRegistry opAlways401 3 = some (.error (.apiError 401), 1) ∧
    asyncRetry defaultRegistry opAlwaysConn 3 = some (.error .connectionError, 3) := by
  refine ⟨?_, ?_, ?_⟩
  · exact claim_C3_retry_counts.1 String defaultRegistry opTwo429 "done"
      (fun _ => .apiError 429) 2 3 (by decide)
      (fun i hi => ⟨by simp [opTwo429, hi], rfl⟩) rfl
  · exact claim_C3_retry_counts.2.1 String defaultRegistry opAlways401
      (.apiError 401) 3 (by decide) rfl (by decide)
  · exact claim_C3_retry_counts.2.2 String defaultRegistry opAlwaysConn
      (fun _ => .connectionError) 3 (by decide) (fun i _ => ⟨rfl, rfl⟩)

/-- C10: any non-API error that is an instance of a registered handler key is
classified retryable; with the handler set registered by `ChatSession`
(which includes `Exception`), every non-API error is retryable and an
operation that keeps failing with such an error is invoked exactly
`max_retries` times before the error is propagated — it is not surfaced on
the first attempt. -/
theorem claim_C10_handler_registration_retryable :
    (∀ (reg : Registry) (e : PyError), instanceOf e .apiErrorT = false →
      reg.any (fun key => key.any (instanceOf e)) = true →
      isRetryableError reg e = true) ∧
    (∀ e : PyError, instanceOf e .apiErrorT = false →
      isRetryableError chatSessionRegistry e = true) ∧
    (∀ (α : Type) (op : Nat → Except PyError α) (e : PyError) (n : Nat),
      1 ≤ n → instanceOf e .apiErrorT = false → (∀ i, op i = .error e) →
      asyncRetry chatSessionRegistry op n = some (.error e, n)) := by
  have h2 : ∀ e : PyError, instanceOf e .apiErrorT = false →
      isRetryableError chatSessionRegistry e = true := by
    intro e he
    cases e with
    | apiError s => simp [instanceOf] at he
    | connectionError => rfl
    | timeoutError => rfl
    | valueError => decide
    | runtimeError => decide
  refine ⟨retryable_of_handler_match, h2, ?_⟩
  intro α op e n hn hapi hall
  exact asyncRetry_all_fail chatSessionRegistry op (fun _ => e) n hn
    (fun i _ => ⟨hall i, h2 e hapi⟩)

/-- Witness for C10: a `ValueError` is retryable under `ChatSession`'s
handler set, and an operation that always raises it is invoked exactly 3
times under `max_retries = 3`. -/
theorem claim_C10_handler_registration_retryable_witness :
    isRetryableError chatSessionRegistry .valueError = true ∧
    asyncRetry chatSessionRegistry (fun _ => (.error .valueError : Except PyError String)) 3
      = some (.error .valueError, 3) := by
  refine ⟨?_, ?_⟩
  · exact claim_C10_handler_registration_retryable.2.1 .valueError rfl
  · exact claim_C10_handler_registration_retryable.2.2 String
      (fun _ => .error .valueError) .valueError 3 (by decide) rfl (fun _ => rfl)

/-- The spec's words for C6: classification is "a fixed rule — rate-limit and
5xx-class remote errors, and local connectivity/timeout errors, are
retryable; authentication, malformed-request, and not-found errors are not",
depending only on the error itself. -/
def specFixedRuleRetryable : PyError → Bool
  | .apiError s => s ∈ [429, 500, 502, 503, 504]
  | .connectionError => true
  | .timeoutError => true
  | _ => false

/-- C6 counterexample: with the handler set `ChatSession` registers (which
includes `Exception`), `is_retryable_error` classifies a `ValueError` as
retryable, while the spec's fixed rule classifies it as non-retryable and a
`RetryHandler` carrying only the default handlers returns `False` for it —
so the result does not depend only on the error itself. -/
theorem claim_C6_counterexample :
    isRetryableError chatSessionRegistry .valueError = true ∧
    specFixedRuleRetryable .valueError = false ∧
    isRetryableError defaultRegistry .valueError = false := by
  decide

/-- C6 (amended): with only the default handlers registered,
`is_retryable_error` agrees everywhere with the spec's fixed rule;
authentication (401), malformed-request (400) and not-found (404) API errors
are non-retryable under *every* handler registry; but any non-API error that
matches an additionally registered handler key is also classified retryable,
so in general the classification depends on the registered handlers. -/
theorem claim_C6_classification_amended :
    (∀ e : PyError, isRetryableError defaultRegistry e = specFixedRuleRetryable e) ∧
    (∀ (reg : Registry) (s : Nat), s ∉ ([429, 500, 502, 503, 504] : List Nat) →
      isRetryableError reg (.apiError s) = false) ∧
    (∀ (reg : Registry) (e : PyError), instanceOf e .apiErrorT = false →
      reg.any (fun key => key.any (instanceOf e)) = true →
      isRetryableError reg e = true) := by
  refine ⟨?_, ?_, retryable_of_handler_match⟩
  · intro e
    cases e <;> rfl
  · intro reg s h
    simp only [isRetryableError]
    exact decide_eq_false h

/-- Witness for C6 (amended) at concrete inputs: a 401 error is not
retryable even under `ChatSession`'s handler set, and the default-registry
classification of a 429 error agrees with the fixed rule. -/
theorem claim_C6_classification_amended_witness :
    isRetryableError chatSessionRegistry (.apiError 401) = false ∧
    isRetryableError defaultRegistry (.apiError 429)
      = specFixedRuleRetryable (.apiError 429) := by
  refine ⟨?_, ?_⟩
  · exact claim_C6_classification_amended.2.1 chatSessionRegistry 401 (by decide)
  · exact claim_C6_classification_amended.1 (.apiError 429)

/-! ## Message transmission (claims C1, C7) -/

theorem chatFilterAux_user_run (ts : List String) :
    ∀ (cur : String), (∀ t ∈ ts, ¬ pyStrip t = "") →
      chatFilterAux (some "user") [("user", cur)] (ts.map (fun t => ("user", t)))
        = [("user", ts.foldl (fun a t => a ++ "\n\n" ++ t) cur)] := by
  induction ts with
  | nil => intro cur _; simp [chatFilterAux]
  | cons t ts' ih =>
    intro cur h
    have ht : ¬ pyStrip t = "" := h t (by simp)
    simp only [List.map_cons, chatFilterAux, ht, if_false, List.foldl_cons]
    rw [if_neg (fun hcon => hcon rfl)]
    simp only [modifyLast]
    exact ih (cur ++ "\n\n" ++ t) (fun x hx => h x (by simp [hx]))

theorem chatFilter_merges_users (t0 : String) (ts : List String)
    (h0 : ¬ pyStrip t0 = "") (h : ∀ t ∈ ts, ¬ pyStrip t = "") :
    chatFilterAux none [] ((t0 :: ts).map (fun t => ("user", t)))
      = [("user", ts.foldl (fun a t => a ++ "\n\n" ++ t) t0)] := by
  simp only [List.map_cons]
  rw [show chatFilterAux none [] (("user", t0) :: ts.map (fun t => ("user", t)))
      = chatFilterAux (some "user") [("user", t0)] (ts.map fun t => ("user", t)) from by
    simp [chatFilterAux, h0]]
  exact chatFilterAux_user_run ts t0 h

/-- C1 (amended): `get_response` transmits the stored log verbatim — the
message list sent by `make_request` is the one-to-one image of
`self.messages` (after appending the new user message), with no merging or
dropping; the consecutive-user-message merging with a `"\n\n"` separator is
performed only by `chat_with_claude` in the original monolithic version
(`docs/original_chat.py`), whose transmitted list collapses a history of
non-blank user messages plus the new message into a single user turn. -/
theorem claim_C1_transmission_amended :
    (∀ (s : ChatSession) (u : String),
      s.getResponseMessages u
        = s.messages.map (fun m => (m.role, m.content)) ++ [("user", Content.text u)]) ∧
    (∀ (t0 : String) (ts : List String) (message : String),
      ¬ pyStrip t0 = "" → (∀ t ∈ ts, ¬ pyStrip t = "") →
      chatWithClaudeMessages ((t0 :: ts).map (fun t => ("user", t))) message
        = [("user", (ts ++ [message]).foldl (fun a t => a ++ "\n\n" ++ t) t0)]) := by
  constructor
  · intro s u
    simp [ChatSession.getResponseMessages, ChatSession.add_message]
  · intro t0 ts message h0 h
    unfold chatWithClaudeMessages
    rw [chatFilter_merges_users t0 ts h0 h]
    simp [dropTrailingBlankAssistant, modifyLast, List.foldl_append]

/-- Witness for C1 (amended) at concrete inputs: the transmitted list of
`get_response` on a log holding one user message plus the new input, and the
merged single turn `chat_with_claude` builds from two stored user messages
and a new one. -/
theorem claim_C1_transmission_amended_witness :
    ChatSession.getResponseMessages ((ChatSession.init d0).add_message "user" (.text "first"))
        "second"
      = ((ChatSession.init d0).add_message "user" (.text "first")).messages.map
          (fun m => (m.role, m.content)) ++ [("user", Content.text "second")] ∧
    chatWithClaudeMessages [("user", "a"), ("user", "b")] "c"
      = [("user", "a\n\nb\n\nc")] := by
  constructor
  · exact claim_C1_transmission_amended.1
      ((ChatSession.init d0).add_message "user" (.text "first")) "second"
  · exact claim_C1_transmission_amended.2 "a" ["b"] "c" (by decide) (by decide)

/-- The session log holding the single user message `"first"`. -/
def s0C1 : ChatSession := (ChatSession.init d0).add_message "user" (.text "first")

/-- C1 counterexample: with a stored user message `"first"` and a second
submission `"second"`, `get_response` transmits *two* separate user turns;
it does not transmit the single merged turn `"first\n\nsecond"` that the
claim describes (and that `chat_with_claude` of the original version
produces). -/
theorem claim_C1_counterexample :
    ChatSession.getResponseMessages s0C1 "second"
      = [("user", Content.text "first"), ("user", Content.text "second")] ∧
    ChatSession.getResponseMessages s0C1 "second"
      ≠ [("user", Content.text ("first" ++ "\n\n" ++ "second"))] ∧
    chatWithClaudeMessages [("user", "first")] "second"
      = [("user", "first" ++ "\n\n" ++ "second")] := by
  refine ⟨rfl, ?_, rfl⟩
  intro h
  have := congrArg List.length h
  simp [ChatSession.getResponseMessages, ChatSession.add_message, s0C1,
    ChatSession.init] at this

/-- C7 (amended): `add_message` performs no validation at all — for every
role string, content value and metadata it appends the message to the log
and leaves every other session field unchanged; it never fails. -/
theorem claim_C7_add_message_amended :
    ∀ (s : ChatSession) (role : String) (content : Content) (md : Option Json),
      (s.add_message role content md).messages = s.messages ++ [⟨role, content, md⟩] ∧
      (s.add_message role content md).name = s.name ∧
      (s.add_message role content md).model = s.model ∧
      (s.add_message role content md).total_tokens_used = s.total_tokens_used ∧
      (s.add_message role content md).context_manager = s.context_manager :=
  fun _ _ _ _ => ⟨rfl, rfl, rfl, rfl, rfl⟩

/-- C7 counterexample: `add_message("system", "x")` — a role that is neither
`user` nor `assistant` — appends the message and raises nothing, where the
claim requires an `InvalidRole` failure with nothing appended. -/
theorem claim_C7_counterexample :
    ((ChatSession.init d0).add_message "system" (.text "x")).messages.map
        (fun m => (m.role)) = ["system"] := rfl

/-! ## SessionStore invariant (claims C2, C8) -/

/-- The SessionStore invariant of the spec: the store is non-empty and the
current-session pointer is a key of `sessions`. -/
def Manager.Inv (st : Manager) : Prop :=
  st.sessions ≠ [] ∧
  ∃ c, st.current_session = some c ∧ (dictGet c st.sessions).isSome

/-- Well-formedness inherited from Python dicts: session names are unique. -/
def Manager.WF (st : Manager) : Prop := (dictKeys st.sessions).Nodup

theorem create_new_session_ok {now : Datetime} {st : Manager} {name : String}
    {st' : Manager} (h : Manager.create_new_session now st name = .ok st') :
    ¬ (dictGet name st.sessions).isSome ∧
    st'.sessions = st.sessions ++ [(name, ChatSession.init now name)] ∧
    st'.current_session
      = (match st.current_session with | none => some name | some c => some c) := by
  unfold Manager.create_new_session at h
  by_cases hdup : (dictGet name st.sessions).isSome
  · rw [if_pos hdup] at h
    exact absurd h (by simp)
  · rw [if_neg hdup] at h
    simp only [Except.ok.injEq] at h
    exact ⟨hdup, by rw [← h], by rw [← h]⟩

theorem manager_inv_create {now : Datetime} {st : Manager} {name : String}
    {st' : Manager} (hInv : Manager.Inv st) (hWF : Manager.WF st)
    (h : Manager.create_new_session now st name = .ok st') :
    Manager.Inv st' ∧ Manager.WF st' := by
  obtain ⟨hdup, hsess, hcur⟩ := create_new_session_ok h
  obtain ⟨_, c, hc, hcget⟩ := hInv
  constructor
  · constructor
    · rw [hsess]; simp
    · refine ⟨c, ?_, ?_⟩
      · rw [hcur, hc]
      · obtain ⟨v, hv⟩ := Option.isSome_iff_exists.mp hcget
        rw [hsess, dictGet_append, hv]
        simp
  · unfold Manager.WF at *
    rw [hsess, dictKeys, List.map_append]
    refine List.Nodup.append hWF (by simp) ?_
    intro x hx hmem
    simp only [List.map_cons, List.map_nil, List.mem_singleton] at hmem
    subst hmem
    exact hdup ((mem_dictKeys_iff x st.sessions).mp hx)

theorem switch_session_ok {now : Datetime} {st : Manager} {name : String}
    {st' : Manager} (h : Manager.switch_session now st name = .ok st') :
    (dictGet name st.sessions).isSome ∧
    st'.sessions = st.sessions ∧ st'.current_session = some name := by
  unfold Manager.switch_session at h
  by_cases habs : (dictGet name st.sessions).isNone
  · rw [if_pos habs] at h
    exact absurd h (by simp)
  · rw [if_neg habs] at h
    simp only [Except.ok.injEq] at h
    refine ⟨?_, by rw [← h], by rw [← h]⟩
    cases hg : dictGet name st.sessions with
    | none => rw [hg] at habs; simp at habs
    | some _ => rfl

theorem rename_session_ok {st : Manager} {old_name new_name : String} {st' : Manager}
    (h : Manager.rename_session st old_name new_name = .ok st') :
    ∃ s, dictGet old_name st.sessions = some s ∧
      ¬ (dictGet new_name st.sessions).isSome ∧
      st'.sessions = dictErase old_name st.sessions ++ [(new_name, s)] ∧
      st'.current_session
        = (if st.current_session = some old_name then some new_name
           else st.current_session) := by
  unfold Manager.rename_session at h
  by_cases h1 : (dictGet old_name st.sessions).isNone
  · rw [if_pos h1] at h
    exact absurd h (by simp)
  rw [if_neg h1] at h
  by_cases h2 : (dictGet new_name st.sessions).isSome
  · rw [if_pos h2] at h
    exact absurd h (by simp)
  rw [if_neg h2] at h
  cases hget : dictGet old_name st.sessions with
  | none => rw [hget] at h1; simp at h1
  | some s =>
    rw [hget] at h
    simp only [Except.ok.injEq] at h
    exact ⟨s, rfl, h2, by rw [← h], by rw [← h]⟩

theorem manager_inv_rename {st : Manager} {old_name new_name : String} {st' : Manager}
    (hInv : Manager.Inv st) (hWF : Manager.WF st)
    (h : Manager.rename_session st old_name new_name = .ok st') :
    Manager.Inv st' ∧ Manager.WF st' := by
  obtain ⟨s, hold, hnew, hsess, hcur⟩ := rename_session_ok h
  obtain ⟨_, c, hc, hcget⟩ := hInv
  have hnewnone : dictGet new_name st.sessions = none :=
    Option.not_isSome_iff_eq_none.mp hnew
  have honn : ¬ old_name = new_name := by
    intro hh
    rw [hh, hnewnone] at hold
    exact absurd hold (by simp)
  refine ⟨⟨by rw [hsess]; simp, ?_⟩, ?_⟩
  · by_cases hif : st.current_session = some old_name
    · refine ⟨new_name, by rw [hcur, if_pos hif], ?_⟩
      rw [hsess, dictGet_append, dictGet_erase, if_neg honn, hnewnone]
      simp [dictGet]
    · refine ⟨c, by rw [hcur, if_neg hif, hc], ?_⟩
      have hcold : ¬ old_name = c := by
        intro hh
        rw [hh] at hif
        exact hif hc
      obtain ⟨v, hv⟩ := Option.isSome_iff_exists.mp hcget
      rw [hsess, dictGet_append, dictGet_erase, if_neg hcold, hv]
      simp
  · unfold Manager.WF at *
    rw [hsess, dictKeys, List.map_append]
    refine List.Nodup.append (nodup_dictKeys_erase old_name st.sessions hWF) (by simp) ?_
    intro x hx hmem
    simp only [List.map_cons, List.map_nil, List.mem_singleton] at hmem
    subst hmem
    rw [show (List.map Prod.fst (dictErase old_name st.sessions) : List String)
          = dictKeys (dictErase old_name st.sessions) from rfl,
        mem_dictKeys_iff, dictGet_erase, if_neg honn, hnewnone] at hx
    simp at hx

theorem delete_session_defaults {st : Manager} {c : String}
    (hc : st.current_session = some c) :
    Manager.delete_session st none = Manager.delete_session st (some c) := by
  unfold Manager.delete_session
  rw [hc]

theorem delete_session_unknown {st : Manager} {n : String}
    (h : dictGet n st.sessions = none) :
    Manager.delete_session st (some n) = .error .unknownSession := by
  show Manager.deleteNamed st n = .error .unknownSession
  unfold Manager.deleteNamed
  rw [if_pos (by rw [h]; rfl)]

theorem delete_session_last {st : Manager} {n : String}
    (hsome : (dictGet n st.sessions).isSome) (hlen : st.sessions.length = 1) :
    Manager.delete_session st (some n) = .error .cannotDeleteLast := by
  show Manager.deleteNamed st n = .error .cannotDeleteLast
  unfold Manager.deleteNamed
  rw [if_neg (by rw [Option.isNone_iff_eq_none]; intro hh; rw [hh] at hsome; simp at hsome),
      if_pos hlen]

theorem delete_session_ok {st : Manager} {n : String} {st' : Manager}
    (h : Manager.delete_session st (some n) = .ok st') :
    (dictGet n st.sessions).isSome ∧ st.sessions.length ≠ 1 ∧
    st'.sessions = dictErase n st.sessions ∧
    st'.files = dictErase (n ++ ".enc") st.files ∧
    st'.current_session
      = (if st.current_session = some n
         then ((dictErase n st.sessions).head?).map Prod.fst
         else st.current_session) := by
  replace h : Manager.deleteNamed st n = .ok st' := h
  unfold Manager.deleteNamed at h
  by_cases h1 : (dictGet n st.sessions).isNone
  · rw [if_pos h1] at h
    exact absurd h (by simp)
  rw [if_neg h1] at h
  by_cases h2 : st.sessions.length = 1
  · rw [if_pos h2] at h
    exact absurd h (by simp)
  rw [if_neg h2] at h
  simp only [Except.ok.injEq] at h
  refine ⟨?_, h2, by rw [← h], by rw [← h], by rw [← h]⟩
  cases hg : dictGet n st.sessions with
  | none => rw [hg] at h1; simp at h1
  | some _ => rfl

theorem manager_inv_delete {st : Manager} {n : String} {st' : Manager}
    (hInv : Manager.Inv st) (hWF : Manager.WF st)
    (h : Manager.delete_session st (some n) = .ok st') :
    Manager.Inv st' ∧ Manager.WF st' := by
  obtain ⟨hsome, hlen, hsess, _, hcur⟩ := delete_session_ok h
  obtain ⟨hne, c, hc, hcget⟩ := hInv
  have hlen1 : 1 ≤ st.sessions.length := by
    cases hl : st.sessions with
    | nil => rw [hl, dictGet] at hsome; simp at hsome
    | cons a rest => simp [hl]
  have hlen2 : 2 ≤ st.sessions.length := by omega
  have hnn : dictErase n st.sessions ≠ [] := dictErase_ne_nil n st.sessions hWF hlen2
  refine ⟨⟨by rw [hsess]; exact hnn, ?_⟩, ?_⟩
  · by_cases hif : st.current_session = some n
    · rw [hcur, if_pos hif, hsess]
      cases hh : (dictErase n st.sessions).head? with
      | none => exact absurd (List.head?_eq_none_iff.mp hh) hnn
      | some p =>
        refine ⟨p.1, rfl, ?_⟩
        rw [dictGet_head (dictErase n st.sessions) p hh]
        rfl
    · refine ⟨c, by rw [hcur, if_neg hif, hc], ?_⟩
      have hcn : ¬ n = c := by
        intro hh
        rw [hh] at hif
        exact hif hc
      obtain ⟨v, hv⟩ := Option.isSome_iff_exists.mp hcget
      rw [hsess, dictGet_erase, if_neg hcn, hv]
      rfl
  · unfold Manager.WF at *
    rw [hsess]
    exact nodup_dictKeys_erase n st.sessions hWF

theorem manager_init_empty_dir (now : Datetime) (dir : String) :
    (Manager.init now dir []).sessions
      = [("Default Session", ChatSession.init now "Default Session")] ∧
    (Manager.init now dir []).current_session = some "Default Session" :=
  ⟨rfl, rfl⟩

theorem manager_init_sessions_ne_nil (now : Datetime) (dir : String)
    (disk : List (String × Json)) : (Manager.init now dir disk).sessions ≠ [] := by
  unfold Manager.init
  set st1 := Manager.load_all_sessions now
    { storage_dir := dir, sessions := [], current_session := none,
      last_active := [], files := disk } with hst1
  by_cases hemp : st1.sessions.isEmpty
  · rw [if_pos hemp]
    have hnil : st1.sessions = [] := by
      cases hs : st1.sessions with
      | nil => rfl
      | cons a rest => rw [hs] at hemp; simp [List.isEmpty] at hemp
    have hdg : (dictGet "Default Session" st1.sessions).isSome = false := by
      rw [hnil]; rfl
    unfold Manager.create_new_session
    rw [if_neg (by rw [hdg]; simp)]
    simp
  · rw [if_neg hemp]
    intro h
    rw [h] at hemp
    simp [List.isEmpty] at hemp

/-- C2 (amended): construction over an *empty* storage directory establishes
the invariant (non-empty store, current a key), and every successful
create/rename/delete preserves it together with key uniqueness; after *any*
construction the store is non-empty; but construction that loads stored
session files leaves the current pointer unset (see the counterexample). -/
theorem claim_C2_store_invariant_amended :
    (∀ (now : Datetime) (dir : String),
      Manager.Inv (Manager.init now dir []) ∧ Manager.WF (Manager.init now dir [])) ∧
    (∀ (now : Datetime) (st : Manager) (name : String) (st' : Manager),
      Manager.Inv st → Manager.WF st →
      Manager.create_new_session now st name = .ok st' →
      Manager.Inv st' ∧ Manager.WF st') ∧
    (∀ (st : Manager) (old_name new_name : String) (st' : Manager),
      Manager.Inv st → Manager.WF st →
      Manager.rename_session st old_name new_name = .ok st' →
      Manager.Inv st' ∧ Manager.WF st') ∧
    (∀ (st : Manager) (target : Option String) (st' : Manager),
      Manager.Inv st → Manager.WF st →
      Manager.delete_session st target = .ok st' →
      Manager.Inv st' ∧ Manager.WF st') ∧
    (∀ (now : Datetime) (dir : String) (disk : List (String × Json)),
      (Manager.init now dir disk).sessions ≠ []) := by
  refine ⟨?_, ?_, ?_, ?_, manager_init_sessions_ne_nil⟩
  · intro now dir
    obtain ⟨hs, hc⟩ := manager_init_empty_dir now dir
    refine ⟨⟨by rw [hs]; simp, "Default Session", hc, by rw [hs]; rfl⟩, ?_⟩
    unfold Manager.WF
    rw [hs]
    simp [dictKeys]
  · intro now st name st' hInv hWF h
    exact manager_inv_create hInv hWF h
  · intro st old_name new_name st' hInv hWF h
    exact manager_inv_rename hInv hWF h
  · intro st target st' hInv hWF h
    cases target with
    | some n => exact manager_inv_delete hInv hWF h
    | none =>
      obtain ⟨c, hc, -⟩ := hInv.2
      rw [delete_session_defaults hc] at h
      exact manager_inv_delete hInv hWF h

/-- The store constructed over an empty storage directory. -/
def stDefault : Manager := Manager.init d0 "conversations" []

/-- `stDefault` after `create_new_session("A")`. -/
def stWithA : Manager :=
  match Manager.create_new_session d0 stDefault "A" with
  | .ok st => st
  | .error _ => stDefault

/-- Witness for C2 (amended) at concrete inputs: the empty-directory store
satisfies the invariant, and it still does after creating session `"A"`. -/
theorem claim_C2_store_invariant_amended_witness :
    (Manager.Inv stDefault ∧ Manager.WF stDefault) ∧
    (Manager.Inv stWithA ∧ Manager.WF stWithA) := by
  have h0 := claim_C2_store_invariant_amended.1 d0 "conversations"
  refine ⟨h0, ?_⟩
  exact claim_C2_store_invariant_amended.2.1 d0 stDefault "A" stWithA h0.1 h0.2 rfl

/-- A storage directory holding one loadable session file `A.enc`. -/
def diskA : List (String × Json) := [("A.enc", .jobj [("messages", .jarr [])])]

/-- C2 counterexample: constructing the store over a directory that holds the
stored session `A.enc` loads session `"A"` (the mapping is non-empty) but
leaves the current-session pointer `None` — `load_session` installs sessions
without ever setting `current_session`, and the default-session branch does
not run because the mapping is non-empty — so the current pointer is *not* a
key of the mapping after this construction, contradicting the claim. -/
theorem claim_C2_counterexample :
    dictKeys (Manager.init d0 "conversations" diskA).sessions = ["A"] ∧
    (Manager.init d0 "conversations" diskA).current_session = none :=
  ⟨rfl, rfl⟩

/-- The two-session store of the C8 scenario: sessions `"A"` and `"B"` (in
that insertion order), current `"A"`, both session files on disk. -/
def stAB : Manager :=
  { storage_dir := "conversations"
    sessions := [("A", ChatSession.init d0 "A"),
                 ("B", ChatSession.init d0 "B")]
    current_session := some "A"
    last_active := [("A", d0), ("B", d0)]
    files := [("A.enc", Json.jobj []), ("B.enc", Json.jobj [])] }

/-- `stAB` after `delete_session("A")`. -/
def stABdel : Manager :=
  match Manager.delete_session stAB (some "A") with
  | .ok st => st
  | .error _ => stAB

/-- C8: `delete_session` defaults to the current session (and fails with
UnknownSession when no current session exists); it fails with UnknownSession
on an absent name and with CannotDeleteLastSession when the store holds
exactly one session; on success it removes the session's file and entry, and
when the deleted session was current, the new current is the first remaining
session in insertion order; in particular deleting `"A"` from the store
`{A, B}` with current `"A"` makes `"B"` current and removes `A.enc`. -/
theorem claim_C8_delete_session :
    (∀ (st : Manager) (c : String), st.current_session = some c →
      Manager.delete_session st none = Manager.delete_session st (some c)) ∧
    (∀ st : Manager, st.current_session = none →
      Manager.delete_session st none = .error .unknownSession) ∧
    (∀ (st : Manager) (n : String), dictGet n st.sessions = none →
      Manager.delete_session st (some n) = .error .unknownSession) ∧
    (∀ (st : Manager) (n : String), (dictGet n st.sessions).isSome →
      st.sessions.length = 1 →
      Manager.delete_session st (some n) = .error .cannotDeleteLast) ∧
    (∀ (st : Manager) (n : String) (st' : Manager),
      Manager.delete_session st (some n) = .ok st' →
      dictGet (n ++ ".enc") st'.files = none ∧
      dictGet n st'.sessions = none ∧
      (st.current_session = some n →
        st'.current_session = (st'.sessions.head?).map Prod.fst) ∧
      (st.current_session ≠ some n → st'.current_session = st.current_session)) ∧
    (Manager.delete_session stAB (some "A") = .ok stABdel ∧
      stABdel.current_session = some "B" ∧
      dictGet ("A" ++ ".enc") stABdel.files = none ∧
      dictKeys stABdel.sessions = ["B"]) := by
  refine ⟨?_, ?_, ?_, ?_, ?_, rfl, rfl, rfl, rfl⟩
  · intro st c hc
    exact delete_session_defaults hc
  · intro st hc
    unfold Manager.delete_session
    rw [hc]
  · intro st n h
    exact delete_session_unknown h
  · intro st n hsome hlen
    exact delete_session_last hsome hlen
  · intro st n st' h
    obtain ⟨_, _, hsess, hfiles, hcur⟩ := delete_session_ok h
    refine ⟨?_, ?_, ?_, ?_⟩
    · rw [hfiles, dictGet_erase, if_pos rfl]
    · rw [hsess, dictGet_erase, if_pos rfl]
    · intro hif
      rw [hcur, if_pos hif, hsess]
    · intro hif
      rw [hcur, if_neg hif]

/-- Witness for C8 at the concrete scenario store: deleting `"A"` (also the
current session, so the omitted-name defaulting applies) removes `A.enc`,
removes the entry and promotes `"B"`. -/
theorem claim_C8_delete_session_witness :
    Manager.delete_session stAB none = .ok stABdel ∧
    dictGet ("A" ++ ".enc") stABdel.files = none ∧
    dictGet "A" stABdel.sessions = none ∧
    stABdel.current_session = (stABdel.sessions.head?).map Prod.fst := by
  have hd := claim_C8_delete_session.2.2.2.2.1 stAB "A" stABdel rfl
  refine ⟨?_, hd.1, hd.2.1, hd.2.2.1 rfl⟩
  rw [claim_C8_delete_session.1 stAB "A" rfl]
  rfl

/-! ## Session serialization round trip (claims C4, C5) -/

/-- The keys of a serialized JSON object, in written order. -/
def jsonKeys : Json → List String
  | .jobj fields => fields.map Prod.fst
  | _ => []

/-- A context manager on which `set_context("code_review")` has run, so its
change history holds one `{context, timestamp: datetime}` entry. -/
def cmX : ContextManager :=
  match (ContextManager.init d0).set_context d0 "code_review" with
  | .ok (_, cm) => cm
  | .error _ => ContextManager.init d0

/-- A session whose active context was switched to `code_review`. -/
def sessX : ChatSession :=
  { ChatSession.init d0 with context_manager := cmX }

/-- A context manager carrying the custom context `mycustom` (added via
`add_custom_context`, which does not touch the history). -/
def cm1 : ContextManager :=
  match (ContextManager.init d0).add_custom_context "mycustom" "My prompt" with
  | .ok cm => cm
  | .error _ => ContextManager.init d0

/-- A session with two messages, a custom context and an untouched (empty)
context-change history. -/
def sess1 : ChatSession :=
  { ChatSession.init d0 "S1" with
    messages := [⟨"user", .text "hi", none⟩, ⟨"assistant", .text "hello", none⟩]
    total_tokens_used := 5
    context_manager := cm1 }

/-- `sess1` saved by `ChatSession.save_session` and re-loaded by
`ChatSession.load_session` (codec applied pointwise). -/
def sess1Loaded : Option ChatSession :=
  (chatSaveJson sess1).bind (chatLoadJson d0)

/-- C4: `save_session` serializes `context_history`, whose entries hold raw
`datetime` timestamps, so `json.dumps` raises `TypeError` for every session
whose history is non-empty — i.e. for every session on which `set_context`
has ever run (`sessX`): the save half of the claimed round trip crashes
instead of producing a blob. For a session whose history is still empty
(`sess1`, custom context added, active context `general`), the round trip
does hold: the loaded session has the same ordered messages, the same active
context, and the same custom-context prompt text, with load replaying
`add_custom_context` before `set_context`. -/
theorem claim_C4_roundtrip :
    chatSaveJson sessX = none ∧
    sess1Loaded.map (fun s => s.messages) = some sess1.messages ∧
    sess1Loaded.map (fun s => s.context_manager.active_context)
      = some sess1.context_manager.active_context ∧
    sess1Loaded.map (fun s => dictGet "mycustom" s.context_manager.system_prompts)
      = some (some "My prompt") :=
  ⟨rfl, rfl, rfl, rfl⟩

/-- `stAB` after the store-level `save_session("A")`. -/
def stABsaved : Manager :=
  match Manager.save_session stAB "A" with
  | .ok st => st
  | .error _ => stAB

/-- C5 counterexample: the store's per-session save (`ConversationManager.
save_session`) writes the four-field payload `{name, messages, context,
last_active}` to `A.enc` — decrypting that file does not yield the claimed
nine-field schema. -/
theorem claim_C5_counterexample :
    Manager.save_session stAB "A" = .ok stABsaved ∧
    (dictGet ("A" ++ ".enc") stABsaved.files).map jsonKeys
      = some ["name", "messages", "context", "last_active"] ∧
    ["name", "messages", "context", "last_active"]
      ≠ ["name", "model", "max_tokens", "temperature", "messages",
         "total_tokens_used", "active_context", "context_history",
         "custom_contexts"] := by
  refine ⟨rfl, rfl, by decide⟩

/-- C5 (amended): the store-level save writes exactly
`{name, messages, context, last_active}`, each stored message dict exactly
`{role, content, metadata}`; the claimed nine-field schema
`{name, model, max_tokens, temperature, messages, total_tokens_used,
active_context, context_history, custom_contexts}` is the one produced by the
session-level `ChatSession.save_session` (when its serialization succeeds,
i.e. when the context history is empty). -/
theorem claim_C5_store_schema_amended :
    (∀ (name : String) (s : ChatSession) (la : Datetime),
      jsonKeys (Manager.managerSaveJson name s la)
        = ["name", "messages", "context", "last_active"]) ∧
    (∀ m : MessageContent,
      jsonKeys (messageToJson m) = ["role", "content", "metadata"]) ∧
    (∀ s : ChatSession, s.context_manager.context_history = [] →
      ∃ j, chatSaveJson s = some j ∧
        jsonKeys j = ["name", "model", "max_tokens", "temperature", "messages",
                      "total_tokens_used", "active_context", "context_history",
                      "custom_contexts"]) := by
  refine ⟨fun _ _ _ => rfl, fun _ => rfl, ?_⟩
  intro s hh
  unfold chatSaveJson
  simp only [ContextManager.get_context_history, hh, ctxHistoryToJson]
  exact ⟨_, rfl, rfl⟩

/-- Witness for C5 (amended) at concrete sessions: the store-level payload
keys for session `"A"`, and the session-level nine-field payload of a fresh
session (empty history). -/
theorem claim_C5_store_schema_amended_witness :
    jsonKeys (Manager.managerSaveJson "A" (ChatSession.init d0) d0)
      = ["name", "messages", "context", "last_active"] ∧
    (chatSaveJson (ChatSession.init d0)).map jsonKeys
      = some ["name", "model", "max_tokens", "temperature", "messages",
              "total_tokens_used", "active_context", "context_history",
              "custom_contexts"] := by
  refine ⟨claim_C5_store_schema_amended.1 "A" (ChatSession.init d0) d0, ?_⟩
  obtain ⟨j, hj, hk⟩ := claim_C5_store_schema_amended.2.2 (ChatSession.init d0) rfl
  rw [hj]
  simp [hk]
